import Mathlib

/-!
Shallow embedding of the irrigator control script (`control.py`).

The persistent JSON configuration document is modelled by the structure
`Doc`; the weather-status snapshot by `WxStatus`.  The relay capability is a
function `Platform.setrelay : Bool → String → Int` (return value is the
errorcode the script accumulates) plus a `cleanup` operation that we record
as a trace event.  File reads and writes of the configuration document are
modelled by an explicit store threaded through the computation; the
companion process that may concurrently set `controls.manual_override` is
modelled by an oracle `ov : Nat → Bool` giving the value of that field
observed by the k-th read of the document (all other fields read back as
last written).  Log lines, relay calls, document writes and the cleanup
call are recorded in an event trace.  The only crash point of the script
(a KeyError when a schedule references a zone absent from `zonemap`,
`control.py` line 259) is modelled with `Except`.
-/

/-- One zone's entry in `zonemap` (`GPIO_mapping`, `enabled`, `active`). -/
structure ZoneInfo where
  gpio : Nat
  enabled : Bool
  active : Bool
deriving Repr, DecidableEq

/-- One zone's entry in a schedule's `zones` map (its `duration` in minutes). -/
structure ZoneDur where
  duration : Nat
deriving Repr, DecidableEq

/-- A schedule: its `zones` map and the transient `start_time.active` flag. -/
structure Sched where
  zones : List (String × ZoneDur)
  active : Bool
deriving Repr, DecidableEq

/-- The `controls` section of the document. -/
structure Controls where
  active : Bool
  manual_override : Bool
deriving Repr, DecidableEq

/-- The `settings` section of the document. -/
structure Settings where
  relay_trigger : Bool
  target_sys : String
  zone_gate : Nat
deriving Repr, DecidableEq

/-- The `wx_data` section of the document (thresholds and enable flags).
Numeric fields are modelled as rationals. -/
structure WxData where
  units : String
  precip : Rat
  min_temp : Rat
  max_temp : Rat
  history_enable : Bool
  forecast_enable : Bool
  temp_enable : Bool
  forecast_history_enable : Bool
deriving Repr, DecidableEq

/-- The persistent configuration/state document (`irrigator.json`). -/
structure Doc where
  zonemap : List (String × ZoneInfo)
  schedules : List (String × Sched)
  settings : Settings
  controls : Controls
  wx : WxData
deriving Repr, DecidableEq

/-- The weather-status snapshot (`wx_status.json`), consumed read-only. -/
structure WxStatus where
  temp_current : Rat
  rain_current : Rat
  rain_history_total : Rat
  rain_forecast : Rat
deriving Repr, DecidableEq

/-- Observable events of one invocation of the control script. -/
inductive Event where
  | logEv : String → Event
  | relayEv : Bool → String → Event
  | writeEv : Doc → Event
  | cleanupEv : Event
deriving Repr, DecidableEq

/-- The relay capability: `setrelay(level, zone)` returns an errorcode. -/
structure Platform where
  setrelay : Bool → String → Int

/-- State threaded through the script: the stored document, the event
trace (in order), and the number of reads of the document performed so
far (the index into the override oracle). -/
structure St where
  store : Doc
  events : List Event
  reads : Nat
deriving Repr, DecidableEq

/-- Model of `ReadJSON` of the configuration document: returns the stored document,
except that the `controls.manual_override` field takes the value the
external override-setter has placed there at this read (oracle `ov`). -/
def readJSON (ov : Nat → Bool) (s : St) : Doc × St :=
  ({ s.store with controls := { s.store.controls with manual_override := ov s.reads } },
   { s with reads := s.reads + 1 })

/-- Model of `WriteJSON`: persist a document (last-writer-wins) and record the write. -/
def writeJSON (d : Doc) (s : St) : St :=
  { s with store := d, events := s.events ++ [Event.writeEv d] }

/-- Model of `WriteLog`: append one line to the log sink. -/
def writeLog (m : String) (s : St) : St :=
  { s with events := s.events ++ [Event.logEv m] }

/-- A `platform.setrelay` call: records the relay event, returns the code. -/
def setrelayOp (p : Platform) (level : Bool) (z : String) (s : St) : Int × St :=
  (p.setrelay level z, { s with events := s.events ++ [Event.relayEv level z] })

/-- A `platform.cleanup()` call. -/
def cleanupOp (s : St) : St :=
  { s with events := s.events ++ [Event.cleanupEv] }

/-- Function `CheckOverride` (`control.py` lines 61-69): re-read the document and
report 42 when `controls.manual_override` is observed true, else 0. -/
def CheckOverride (ov : Nat → Bool) (s : St) : Int × St :=
  let r := readJSON ov s
  (if r.1.controls.manual_override = true then 42 else 0, r.2)

/-- The hold loop of `Irrigate` (`control.py` lines 41-49): starting from
`fuel = duration * 60` remaining one-second ticks, each iteration first
checks the loop condition (fuel left), then polls `CheckOverride`,
breaking when it reports positive, else sleeps one tick. -/
def holdLoop (ov : Nat → Bool) : Nat → St → St
  | 0, s => s
  | n + 1, s =>
    let c := CheckOverride ov s
    if c.1 > 0 then c.2 else holdLoop ov n c.2

/-- Function `Irrigate` (`control.py` lines 29-58): engage the zone's relay, hold
for the duration while polling the override flag, disengage, and if the
override is still observed true after disengaging return the sentinel 42,
else the sum of the two relay return codes. -/
def Irrigate (p : Platform) (zonename : String) (duration : Nat)
    (ov : Nat → Bool) (relay_trigger : Bool) (s : St) : Int × St :=
  let s := writeLog ("Turning on Zone: " ++ zonename ++ " for " ++
    toString duration ++ " minutes.") s
  let r1 := setrelayOp p relay_trigger zonename s
  let s := holdLoop ov (duration * 60) r1.2
  let s := writeLog ("Turning off Zone: " ++ zonename ++ ".") s
  let r2 := setrelayOp p (!relay_trigger) zonename s
  let c := CheckOverride ov r2.2
  (if c.1 > 0 then 42 else r1.1 + r2.1, c.2)

/-- Modelled from the spec: the helper `create_wx_json` lives in
`common.py`, which is not among the sources here; per the spec a failed
weather fetch "degrades to rain amounts are zero", a safe non-blocking
all-zero snapshot. -/
def create_wx_json : WxStatus :=
  { temp_current := 0, rain_current := 0, rain_history_total := 0, rain_forecast := 0 }

/-- Function `checkweather` (`control.py` lines 72-86): read the weather snapshot;
on failure substitute the defaulted snapshot and errorcode 6. -/
def checkweather (fetch : Option WxStatus) : WxStatus × Int :=
  match fetch with
  | some ws => (ws, 0)
  | none => (create_wx_json, 6)

/-- The weather-gate evaluation (`control.py` lines 212-238): four checks,
each independently enable-gated, each setting `wx_cancel` and appending its
tag to `wx_cancel_reason` when it trips, in this fixed order.  The reason
string of the script is `String.join` of the returned tag list. -/
def wxCancelEval (wd : WxData) (ws : WxStatus) : Bool × List String :=
  let c := false
  let r : List String := []
  let s1 := if wd.history_enable = true ∧ ws.rain_history_total > wd.precip then
      (true, r ++ ["(Precipitation History) "]) else (c, r)
  let s2 := if wd.forecast_enable = true ∧ ws.rain_forecast > wd.precip then
      (true, s1.2 ++ ["(Precipitation Forecast) "]) else s1
  let s3 := if wd.temp_enable = true ∧
      (ws.temp_current < wd.min_temp ∨ ws.temp_current > wd.max_temp) then
      (true, s2.2 ++ ["(Temperature) "]) else s2
  let s4 := if wd.forecast_history_enable = true ∧
      ws.rain_forecast + ws.rain_history_total > wd.precip then
      (true, s3.2 ++ ["(Precipitation Forecast + History) "]) else s3
  s4

/-- The five mutually exclusive states of the top-level if/else tree
(`control.py` lines 244-303). -/
inductive Branch where
  | init
  | scheduleRun
  | manualRun
  | weatherCancelled
  | noAction
deriving Repr, DecidableEq

/-- The top-level if/elif/else decision (`control.py` lines 244-303),
evaluated in the source's exact priority order. -/
def decideBranch (ini schedule_run wx_cancel force : Bool) : Branch :=
  if ini = true then Branch.init
  else if schedule_run = true ∧ (wx_cancel = false ∨ force = true) then Branch.scheduleRun
  else if schedule_run = false ∧ (wx_cancel = false ∨ force = true) then Branch.manualRun
  else if wx_cancel = true then Branch.weatherCancelled
  else Branch.noAction

/-- Comparison used by Python's `sorted` on the `(key, value)` items of a
schedule's `zones` dict: keys are unique, so items compare by key. -/
def keyLe (a b : String × ZoneDur) : Bool := a.1 ≤ b.1

/-- Model of `sorted(... ['zones'].items())` (`control.py` line 258). -/
def sortByKey (l : List (String × ZoneDur)) : List (String × ZoneDur) :=
  l.mergeSort keyLe

/-- Set the transient `active` flag of one zone in `zonemap`. -/
def setZoneActive (d : Doc) (key : String) (b : Bool) : Doc :=
  { d with zonemap := d.zonemap.map (fun e =>
      if e.1 == key then (e.1, { e.2 with active := b }) else e) }

/-- Set the transient `start_time.active` flag of one schedule. -/
def setSchedActive (d : Doc) (key : String) (b : Bool) : Doc :=
  { d with schedules := d.schedules.map (fun e =>
      if e.1 == key then (e.1, { e.2 with active := b }) else e) }

/-- The per-zone loop of a schedule run (`control.py` lines 258-269).
For each `(key, value)` item (already sorted): look up
`zonemap[key]` (a missing key is the script's KeyError crash), skip the
zone unless it is enabled and its duration is nonzero, otherwise persist
the zone's `active := true`, run `Irrigate` (its result *replaces* the
running errorcode), re-read the document, persist `active := false`, and
continue with the re-read document. -/
def schedLoop (p : Platform) (ov : Nat → Bool) (rt : Bool) :
    List (String × ZoneDur) → Doc → Int → St → Except String (Doc × Int × St)
  | [], d, ec, s => Except.ok (d, ec, s)
  | (key, zd) :: rest, d, ec, s =>
    match d.zonemap.lookup key with
    | none => Except.error key
    | some zi =>
      if zi.enabled = true ∧ zd.duration ≠ 0 then
        let d1 := setZoneActive d key true
        let s1 := writeJSON d1 s
        let r := Irrigate p key zd.duration ov rt s1
        let rd := readJSON ov r.2
        let d3 := setZoneActive rd.1 key false
        let s3 := writeJSON d3 rd.2
        schedLoop p ov rt rest d3 r.1 s3
      else
        schedLoop p ov rt rest d ec s

/-- Execution of the selected branch of the if/else tree
(`control.py` lines 244-303), returning the updated document, the
errorcode, and the state.  `ec` is the ambient errorcode entering the
tree (0, or 6 after a failed weather fetch). -/
def execBranch (p : Platform) (ov : Nat → Bool) (rt : Bool) (b : Branch)
    (schedule_selected zone : String) (duration : Nat) (reason : String)
    (d : Doc) (ec : Int) (s : St) : Except String (Doc × Int × St) :=
  match b with
  | Branch.init =>
    Except.ok (d, 0, writeLog "Initialize Relays Selected." s)
  | Branch.scheduleRun =>
    let s := writeLog ("Schedule Run Selected with Schedule: " ++ schedule_selected) s
    match d.schedules.lookup schedule_selected with
    | some sch =>
      let s := writeLog (schedule_selected ++ " found in JSON file. Running Now.") s
      let d1 := setSchedActive d schedule_selected true
      let s := writeJSON d1 s
      match schedLoop p ov rt (sortByKey sch.zones) d1 ec s with
      | Except.ok (d2, ec2, s2) =>
        let d3 := setSchedActive d2 schedule_selected false
        let s3 := writeJSON d3 s2
        Except.ok (d3, ec2, s3)
      | Except.error e => Except.error e
    | none =>
      let s := writeLog (schedule_selected ++ " not found in JSON file.  Exiting Now.") s
      Except.ok (d, 1, s)
  | Branch.manualRun =>
    let s := writeLog "Manual Run Selected." s
    match d.zonemap.lookup zone with
    | some _ =>
      let d1 := setZoneActive d zone true
      let s := writeJSON d1 s
      let r := Irrigate p zone duration ov rt s
      let d2 := setZoneActive d1 zone false
      let s2 := writeJSON d2 r.2
      Except.ok (d2, r.1, s2)
    | none =>
      let s := writeLog (zone ++ " not found in JSON file.  Exiting.") s
      Except.ok (d, 1, s)
  | Branch.weatherCancelled =>
    let s := writeLog
      ("Irrigation cancelled due to weather status exceeding limits. " ++ reason) s
    Except.ok (d, 1, s)
  | Branch.noAction =>
    Except.ok (d, 0, writeLog "No Action." s)

/-- Command-line arguments of the script (after parsing). -/
structure Args where
  zone : Option String
  duration : Option Nat
  schedule : Option String
  force : Bool
  ini : Bool
deriving Repr, DecidableEq

/-- Result of a completed (non-crashing) invocation. -/
structure MainResult where
  errorcode : Int
  branch : Branch
  events : List Event
  finalDoc : Doc
deriving Repr, DecidableEq

/-- The platform-selection log line (`control.py` lines 166-185). -/
def platformInitMsg (t : String) : String :=
  if t == "CHIP" then "Initializing Relays on CHIP."
  else if t == "RasPi" then "Initializing Relays on Raspberry Pi."
  else "Initializing Relays on NONE.  Prototype Mode."

/-- The weather-information line assembled from the enabled checks
(`control.py` lines 193-199). -/
def wxInfoMsg (d : Doc) (ws : WxStatus) : String :=
  let p_units := if d.wx.units == "F" then "inches" else "mm"
  (if d.wx.temp_enable = true then
    "Current Temperature: " ++ toString ws.temp_current ++ d.wx.units ++ " " else "")
  ++ (if d.wx.history_enable = true then
    "Precipitation History: " ++ toString ws.rain_history_total ++ " " ++ p_units ++ " " else "")
  ++ (if d.wx.forecast_enable = true then
    "Precipitation Forecast: " ++ toString ws.rain_forecast ++ " " ++ p_units ++ " " else "")

/-- The weather-information log block (`control.py` lines 189-201): on a
failed fetch nothing is logged (the failure message is assigned but the
`WriteLog` sits inside the `else`); otherwise the assembled line is
logged when nonempty. -/
def wxInfoLog (d : Doc) (ec : Int) (ws : WxStatus) (s : St) : St :=
  if ec ≠ 0 then s
  else if wxInfoMsg d ws ≠ "" then writeLog (wxInfoMsg d ws) s else s

/-- The straight-line prelude of the script (`control.py` lines 101-238,
everything before the if/else tree): initial log, read the document, flag
`controls.active := true` and persist, platform-selection log, weather
fetch, weather-information log, force handling.  Returns the in-memory
document, the ambient errorcode entering the tree (0, or 6 after a failed
weather fetch), and the state. -/
def mainPrelude (args : Args) (doc0 : Doc) (ov : Nat → Bool)
    (wxFetch : Option WxStatus) : Doc × Int × St :=
  let s : St := { store := doc0, events := [], reads := 0 }
  let s := writeLog "***** Control Script Starting *****" s
  let rd := readJSON ov s
  let d := rd.1
  let s := rd.2
  let d := { d with controls := { d.controls with active := true } }
  let s := writeJSON d s
  let s := writeLog (platformInitMsg d.settings.target_sys) s
  let cw := checkweather wxFetch
  let s := wxInfoLog d cw.2 cw.1 s
  let s := if args.force = true then
    writeLog "Force run selected. Ignoring weather." s else s
  (d, cw.2, s)

/-- One invocation of the control script (`control.py` lines 101-319):
the prelude, the weather-gate evaluation, the if/else tree, then
unconditionally `platform.cleanup()`, the exit logs, and the final
persist with `controls.active := false` and
`controls.manual_override := false`. -/
def mainRun (args : Args) (doc0 : Doc) (p : Platform) (ov : Nat → Bool)
    (wxFetch : Option WxStatus) : Except String MainResult :=
  let pre := mainPrelude args doc0 ov wxFetch
  let d := pre.1
  let ec0 := pre.2.1
  let s := pre.2.2
  let wxe := wxCancelEval d.wx (checkweather wxFetch).1
  let b := decideBranch args.ini args.schedule.isSome wxe.1 args.force
  match execBranch p ov d.settings.relay_trigger b (args.schedule.getD "null")
      (args.zone.getD "null") (args.duration.getD 0) (String.join wxe.2) d ec0 s with
  | Except.error e => Except.error e
  | Except.ok (d, ec, s) =>
    let s := cleanupOp s
    let s := writeLog ("Exiting with errorcode = " ++ toString ec) s
    let s := writeLog "***** Control Script Ended *****" s
    let d := { d with controls := { active := false, manual_override := false } }
    let s := writeJSON d s
    Except.ok { errorcode := ec, branch := b, events := s.events, finalDoc := s.store }

/-- Read index at which the hold loop's polling stops: starting at read
index `i` with `n` one-second ticks remaining, the index of the first
document read performed after the loop exits. -/
def ovStop (ov : Nat → Bool) (i : Nat) : Nat → Nat
  | 0 => i
  | n + 1 => if ov i = true then i + 1 else ovStop ov (i + 1) n

theorem holdLoop_eq (ov : Nat → Bool) (n : Nat) (s : St) :
    holdLoop ov n s = { s with reads := ovStop ov s.reads n } := by
  induction n generalizing s with
  | zero => simp [holdLoop, ovStop]
  | succ n ih =>
    simp only [holdLoop, CheckOverride, readJSON]
    by_cases h : ov s.reads = true
    · simp [h, ovStop]
    · simp [h, ovStop, ih]

/-- The log line announcing a zone's activation. -/
def irrOnMsg (z : String) (dur : Nat) : String :=
  "Turning on Zone: " ++ z ++ " for " ++ toString dur ++ " minutes."

/-- The log line announcing a zone's deactivation. -/
def irrOffMsg (z : String) : String :=
  "Turning off Zone: " ++ z ++ "."

/-- The events emitted by one `Irrigate` call. -/
def irrEvents (z : String) (dur : Nat) (rt : Bool) : List Event :=
  [Event.logEv (irrOnMsg z dur), Event.relayEv rt z,
   Event.logEv (irrOffMsg z), Event.relayEv (!rt) z]

/-- Closed form of `Irrigate`: the errorcode is 42 when the override is
observed true at the post-disengage check, else the sum of the two relay
return codes; the events are exactly `irrEvents`; the store is untouched. -/
theorem Irrigate_eq (p : Platform) (z : String) (dur : Nat) (ov : Nat → Bool)
    (rt : Bool) (s : St) :
    Irrigate p z dur ov rt s =
      (if ov (ovStop ov s.reads (dur * 60)) = true then 42
        else p.setrelay rt z + p.setrelay (!rt) z,
       { store := s.store, events := s.events ++ irrEvents z dur rt,
         reads := ovStop ov s.reads (dur * 60) + 1 }) := by
  simp only [Irrigate, writeLog, setrelayOp, holdLoop_eq, CheckOverride, readJSON,
    irrEvents, irrOnMsg, irrOffMsg]
  by_cases h : ov (ovStop ov s.reads (dur * 60)) = true
  · simp [h]
  · simp [h]

/-- The sequence of `setrelay(level, zone)` calls recorded in a trace. -/
def relayCalls (es : List Event) : List (Bool × String) :=
  es.filterMap (fun e => match e with
    | Event.relayEv l z => some (l, z)
    | _ => none)

/-- C2: for every zone name, duration and override-observation sequence,
`Irrigate` performs exactly one engage call followed by one disengage
call with the negated trigger level, on every path (including an early
abort of the hold loop); the last relay call before returning is always
the disengage, so no path returns with the zone still engaged. -/
theorem Irrigate_always_disengages (p : Platform) (z : String) (dur : Nat)
    (ov : Nat → Bool) (rt : Bool) (s : St) :
    relayCalls (Irrigate p z dur ov rt s).2.events =
      relayCalls s.events ++ [(rt, z), (!rt, z)] ∧
    (relayCalls (Irrigate p z dur ov rt s).2.events).getLast? = some (!rt, z) := by
  rw [Irrigate_eq]
  constructor
  · simp [relayCalls, irrEvents]
  · simp [relayCalls, irrEvents]

/-- C3: whenever the persistent override flag is observed true at the
check performed after the relay has been disengaged, `Irrigate` returns
the sentinel 42 — whatever codes the relay capability returned. -/
theorem Irrigate_override_sentinel (p : Platform) (z : String) (dur : Nat)
    (ov : Nat → Bool) (rt : Bool) (s : St)
    (h : ov (ovStop ov s.reads (dur * 60)) = true) :
    (Irrigate p z dur ov rt s).1 = 42 := by
  rw [Irrigate_eq]
  simp [h]

/-- A minimal concrete document used by concrete witnesses. -/
def sampleDoc : Doc :=
  { zonemap := [("frontlawn", { gpio := 4, enabled := true, active := false })],
    schedules := [("morning", { zones := [("frontlawn", { duration := 5 })], active := false })],
    settings := { relay_trigger := false, target_sys := "RasPi", zone_gate := 17 },
    controls := { active := false, manual_override := false },
    wx := { units := "F", precip := 1, min_temp := 0, max_temp := 100,
            history_enable := true, forecast_enable := false,
            temp_enable := false, forecast_history_enable := false } }

/-- A concrete starting state over `sampleDoc`. -/
def sampleSt : St := { store := sampleDoc, events := [], reads := 0 }

theorem Irrigate_override_sentinel_witness :
    ((fun _ => true) (ovStop (fun _ => true) sampleSt.reads (0 * 60)) = true) ∧
    (Irrigate ⟨fun _ _ => 7⟩ "frontlawn" 0 (fun _ => true) false sampleSt).1 = 42 :=
  ⟨rfl, Irrigate_override_sentinel ⟨fun _ _ => 7⟩ "frontlawn" 0 (fun _ => true) false sampleSt rfl⟩

theorem ovStop_all_false (ov : Nat → Bool) (h : ∀ k, ov k = false) :
    ∀ n i, ovStop ov i n = i + n := by
  intro n
  induction n with
  | zero => intro i; simp [ovStop]
  | succ n ih => intro i; simp [ovStop, h, ih]; omega

/-- C4: when the override flag is never set, `Irrigate` returns the sum
of the two relay-capability return codes (engage plus disengage), and 0
whenever the capability always returns 0. -/
theorem Irrigate_accumulates (p : Platform) (z : String) (dur : Nat)
    (ov : Nat → Bool) (rt : Bool) (s : St) (h : ∀ k, ov k = false) :
    (Irrigate p z dur ov rt s).1 = p.setrelay rt z + p.setrelay (!rt) z ∧
    ((∀ l w, p.setrelay l w = 0) → (Irrigate p z dur ov rt s).1 = 0) := by
  rw [Irrigate_eq]
  refine ⟨by simp [h], fun h0 => by simp [h, h0]⟩

theorem Irrigate_accumulates_witness :
    (Irrigate ⟨fun l _ => if l then 2 else 3⟩ "frontlawn" 0 (fun _ => false) false sampleSt).1 =
      (⟨fun l _ => if l then 2 else 3⟩ : Platform).setrelay false "frontlawn" +
      (⟨fun l _ => if l then 2 else 3⟩ : Platform).setrelay (!false) "frontlawn" :=
  (Irrigate_accumulates ⟨fun l _ => if l then 2 else 3⟩ "frontlawn" 0 (fun _ => false)
    false sampleSt (fun _ => rfl)).1

/-- C10: the final catch-all "No Action" branch of the top-level decision
tree is unreachable: no combination of the init flag, schedule-run flag,
weather-cancel verdict and force flag selects it. -/
theorem no_action_unreachable :
    ∀ i sr wc f : Bool, decideBranch i sr wc f ≠ Branch.noAction := by
  decide

/-- A configuration with the history check (and the forecast check)
enabled, threshold `precip = 1`. -/
def c5wd : WxData :=
  { units := "F", precip := 1, min_temp := 0, max_temp := 100,
    history_enable := true, forecast_enable := true,
    temp_enable := false, forecast_history_enable := false }

/-- A snapshot with `rain_history_total` exactly equal to the threshold
but a forecast above it. -/
def c5ws : WxStatus :=
  { temp_current := 50, rain_current := 0, rain_history_total := 1, rain_forecast := 2 }

/-- A snapshot with `rain_history_total` one unit above the threshold. -/
def c5ws2 : WxStatus :=
  { temp_current := 50, rain_current := 0, rain_history_total := 2, rain_forecast := 0 }

/-- C5 counterexample: with the history check enabled and
`rain_history_total` exactly equal to `precip`, the gate can still
cancel (here the forecast check trips), so "the weather gate does not
cancel" is false as stated for every snapshot/configuration. -/
theorem wx_equal_precip_counterexample :
    c5wd.history_enable = true ∧ c5ws.rain_history_total = c5wd.precip ∧
    (wxCancelEval c5wd c5ws).1 = true := by
  refine ⟨rfl, by decide, by decide⟩

/-- C5 amended: with the history check enabled, when `rain_history_total`
is exactly equal to `precip` the history check does not fire — the gate
behaves exactly as if the history check were disabled (strict
greater-than, not greater-or-equal); when `rain_history_total` exceeds
`precip` the gate cancels and the reason list contains the history tag. -/
theorem wx_history_strict (wd : WxData) (ws : WxStatus)
    (h : wd.history_enable = true) :
    (ws.rain_history_total = wd.precip →
      wxCancelEval wd ws = wxCancelEval { wd with history_enable := false } ws) ∧
    (ws.rain_history_total > wd.precip →
      (wxCancelEval wd ws).1 = true ∧
      "(Precipitation History) " ∈ (wxCancelEval wd ws).2) := by
  constructor
  · intro heq
    simp [wxCancelEval, heq]
  · intro hgt
    simp only [wxCancelEval]
    split_ifs <;> simp_all

theorem wx_history_strict_witness :
    c5wd.history_enable = true ∧
    (c5ws.rain_history_total = c5wd.precip ∧
      wxCancelEval c5wd c5ws = wxCancelEval { c5wd with history_enable := false } c5ws) ∧
    (c5ws2.rain_history_total > c5wd.precip ∧
      (wxCancelEval c5wd c5ws2).1 = true ∧
      "(Precipitation History) " ∈ (wxCancelEval c5wd c5ws2).2) :=
  ⟨rfl,
   ⟨by decide, (wx_history_strict c5wd c5ws rfl).1 (by decide)⟩,
   ⟨by decide, (wx_history_strict c5wd c5ws2 rfl).2 (by decide)⟩⟩

/-- Whether `zonemap[k]` exists and carries `enabled = true`. -/
def zoneEnabled (d : Doc) (k : String) : Bool :=
  match d.zonemap.lookup k with
  | some zi => zi.enabled
  | none => false

/-- The inclusion test of the schedule loop (`control.py` lines 259-260):
the zone is enabled in `zonemap` and its configured duration is nonzero. -/
def inclZone (d : Doc) (e : String × ZoneDur) : Bool :=
  zoneEnabled d e.1 && e.2.duration != 0

theorem lookup_map_upd {α : Type} (l : List (String × α)) (f : α → α) (k k' : String) :
    (l.map (fun e => if e.1 == k then (e.1, f e.2) else e)).lookup k' =
      (l.lookup k').map (fun v => if k' == k then f v else v) := by
  induction l with
  | nil => simp
  | cons a t ih =>
    obtain ⟨ak, av⟩ := a
    cases hak : ak == k with
    | true =>
      have h1 : ak = k := eq_of_beq hak
      cases hka : k' == ak with
      | true =>
        have h2 : k' = ak := eq_of_beq hka
        subst h1; subst h2
        simp [List.lookup_cons]
      | false =>
        subst h1
        simp only [List.lookup_cons, hka]
        simp [List.lookup_cons, hka]
        simpa [hka] using ih
    | false =>
      have h1 : ¬ ak = k := by simpa using hak
      cases hka : k' == ak with
      | true =>
        have h2 : k' = ak := eq_of_beq hka
        subst h2
        simp [List.lookup_cons, h1]
      | false =>
        simp [List.lookup_cons, h1, hka]
        simpa using ih

theorem lookup_setZoneActive (d : Doc) (k : String) (b : Bool) (k' : String) :
    (setZoneActive d k b).zonemap.lookup k' =
      (d.zonemap.lookup k').map (fun zi => if k' == k then { zi with active := b } else zi) :=
  lookup_map_upd d.zonemap (fun zi => { zi with active := b }) k k'

theorem zoneEnabled_setZoneActive (d : Doc) (k : String) (b : Bool) (k' : String) :
    zoneEnabled (setZoneActive d k b) k' = zoneEnabled d k' := by
  simp only [zoneEnabled, lookup_setZoneActive]
  cases d.zonemap.lookup k' with
  | none => rfl
  | some zi => by_cases h : k' == k <;> simp [h]

theorem isSome_setZoneActive (d : Doc) (k : String) (b : Bool) (k' : String) :
    ((setZoneActive d k b).zonemap.lookup k').isSome = (d.zonemap.lookup k').isSome := by
  simp [lookup_setZoneActive]

theorem zonemap_controls (d : Doc) (c : Controls) :
    ({ d with controls := c } : Doc).zonemap = d.zonemap := rfl

theorem inclZone_congr {d d' : Doc} (h : ∀ k, zoneEnabled d' k = zoneEnabled d k)
    (x : String × ZoneDur) : inclZone d' x = inclZone d x := by
  simp [inclZone, h]


/-- Events the schedule loop's body may append: document writes, relay
calls, and the two `Irrigate` log lines — never the cleanup event. -/
def schedEvOk (e : Event) : Prop :=
  match e with
  | Event.cleanupEv => False
  | Event.logEv m => (∃ z n, m = irrOnMsg z n) ∨ (∃ z, m = irrOffMsg z)
  | _ => True

theorem schedLoop_ok (p : Platform) (ov : Nat → Bool) (rt : Bool) :
    ∀ (entries : List (String × ZoneDur)) (d : Doc) (ec : Int) (s : St),
    (∀ x ∈ entries, (d.zonemap.lookup x.1).isSome = true) →
    s.store = d →
    ∃ d' ec' s', schedLoop p ov rt entries d ec s = Except.ok (d', ec', s') ∧
      s'.store = d' ∧
      (∀ k, zoneEnabled d' k = zoneEnabled d k) ∧
      (∀ k, (d'.zonemap.lookup k).isSome = (d.zonemap.lookup k).isSome) ∧
      (∃ l, s'.events = s.events ++ l ∧ (∀ e ∈ l, schedEvOk e)) ∧
      relayCalls s'.events = relayCalls s.events ++
        (entries.filter (inclZone d)).flatMap (fun x => [(rt, x.1), (!rt, x.1)]) ∧
      (entries.filter (inclZone d) = [] → ec' = ec ∧ d' = d ∧ s' = s) := by
  intro entries
  induction entries with
  | nil =>
    intro d ec s hkeys hstore
    exact ⟨d, ec, s, rfl, hstore, fun _ => rfl, fun _ => rfl,
      ⟨[], by simp, by simp⟩, by simp [schedLoop], fun _ => ⟨rfl, rfl, rfl⟩⟩
  | cons a rest ih =>
    intro d ec s hkeys hstore
    obtain ⟨key, zd⟩ := a
    have hk : (d.zonemap.lookup key).isSome = true := hkeys (key, zd) (by simp)
    obtain ⟨zi, hzi⟩ : ∃ zi, d.zonemap.lookup key = some zi := by
      cases h : d.zonemap.lookup key with
      | none => rw [h] at hk; simp at hk
      | some zi => exact ⟨zi, rfl⟩
    by_cases hcond : zi.enabled = true ∧ zd.duration ≠ 0
    · have hincl : inclZone d (key, zd) = true := by
        simp [inclZone, zoneEnabled, hzi, hcond.1, hcond.2]
      simp only [schedLoop]
      rw [hzi]
      simp only [if_pos hcond]
      rw [Irrigate_eq]
      simp only [writeJSON, readJSON]
      set d1 : Doc := setZoneActive d key true with hd1
      set d3 : Doc := setZoneActive { d1 with controls := { active := d1.controls.active, manual_override := ov (ovStop ov s.reads (zd.duration * 60) + 1) } } key false with hd3
      set s3 : St := { store := d3, events := s.events ++ [Event.writeEv d1] ++ irrEvents key zd.duration rt ++ [Event.writeEv d3], reads := ovStop ov s.reads (zd.duration * 60) + 1 + 1 } with hs3
      have hzeq : ∀ k, zoneEnabled d3 k = zoneEnabled d k := by
        intro k
        rw [hd3, zoneEnabled_setZoneActive]
        show zoneEnabled (setZoneActive d key true) k = _
        exact zoneEnabled_setZoneActive d key true k
      have hiso : ∀ k, (d3.zonemap.lookup k).isSome = (d.zonemap.lookup k).isSome := by
        intro k
        rw [hd3, isSome_setZoneActive]
        show ((setZoneActive d key true).zonemap.lookup k).isSome = _
        exact isSome_setZoneActive d key true k
      obtain ⟨d', ec', s', h1, h2, h3, h4, h5, h6, h7⟩ :=
        ih d3 (if ov (ovStop ov s.reads (zd.duration * 60)) = true then 42
          else p.setrelay rt key + p.setrelay (!rt) key) s3
          (fun x hx => by rw [hiso x.1]; exact hkeys x (List.mem_cons_of_mem _ hx)) rfl
      refine ⟨d', ec', s', h1, h2, ?_, ?_, ?_, ?_, ?_⟩
      · intro k; rw [h3 k]; exact hzeq k
      · intro k; rw [h4 k]; exact hiso k
      · obtain ⟨l, hl, hok⟩ := h5
        refine ⟨Event.writeEv d1 :: Event.logEv (irrOnMsg key zd.duration) ::
          Event.relayEv rt key :: Event.logEv (irrOffMsg key) ::
          Event.relayEv (!rt) key :: Event.writeEv d3 :: l, ?_, ?_⟩
        · rw [hl]
          show s.events ++ [Event.writeEv d1] ++ irrEvents key zd.duration rt
            ++ [Event.writeEv d3] ++ l = _
          simp [irrEvents, List.append_assoc]
        · intro e he
          simp only [List.mem_cons] at he
          rcases he with rfl | rfl | rfl | rfl | rfl | rfl | h
          · trivial
          · exact Or.inl ⟨key, zd.duration, rfl⟩
          · trivial
          · exact Or.inr ⟨key, rfl⟩
          · trivial
          · trivial
          · exact hok e h
      · rw [h6]
        have hrc : relayCalls s3.events = relayCalls s.events ++ [(rt, key), (!rt, key)] := by
          show relayCalls (s.events ++ [Event.writeEv d1] ++ irrEvents key zd.duration rt
            ++ [Event.writeEv d3]) = _
          simp [relayCalls, irrEvents]
        rw [hrc]
        rw [List.filter_congr (fun x _ => inclZone_congr hzeq x)]
        rw [List.filter_cons, if_pos hincl]
        simp [List.append_assoc]
      · intro hf
        rw [List.filter_cons, if_pos hincl] at hf
        exact absurd hf (List.cons_ne_nil _ _)
    · have hincl : inclZone d (key, zd) = false := by
        simp only [inclZone, zoneEnabled, hzi]
        rw [not_and_or] at hcond
        rcases hcond with h | h
        · simp [h]
        · simp at h
          simp [h]
      have step : schedLoop p ov rt ((key, zd) :: rest) d ec s = schedLoop p ov rt rest d ec s := by
        simp only [schedLoop, hzi]
        rw [if_neg hcond]
      rw [step]
      obtain ⟨d', ec', s', h1, h2, h3, h4, h5, h6, h7⟩ :=
        ih d ec s (fun x hx => hkeys x (List.mem_cons_of_mem _ hx)) hstore
      refine ⟨d', ec', s', h1, h2, h3, h4, h5, ?_, ?_⟩
      · rw [h6, List.filter_cons, if_neg (by simp [hincl])]
      · intro hf
        rw [List.filter_cons, if_neg (by simp [hincl])] at hf
        exact h7 hf

theorem schedLoop_append (p : Platform) (ov : Nat → Bool) (rt : Bool)
    (l1 l2 : List (String × ZoneDur)) (d : Doc) (ec : Int) (s : St) :
    schedLoop p ov rt (l1 ++ l2) d ec s =
      (match schedLoop p ov rt l1 d ec s with
       | Except.error e => Except.error e
       | Except.ok r => schedLoop p ov rt l2 r.1 r.2.1 r.2.2) := by
  induction l1 generalizing d ec s with
  | nil => simp [schedLoop]
  | cons a t ih =>
    obtain ⟨key, zd⟩ := a
    simp only [List.cons_append, schedLoop]
    cases h : d.zonemap.lookup key with
    | none => rfl
    | some zi =>
      by_cases hc : zi.enabled = true ∧ zd.duration ≠ 0
      · simp only [if_pos hc]
        exact ih _ _ _
      · simp only [if_neg hc]
        exact ih _ _ _

/-- C9: in a schedule run, when `e` is the last included zone entry (all
entries after it are skipped), the errorcode produced by the zone loop is
exactly the value returned by the `Irrigate` call on `e`, performed from
the state reached after the preceding entries — the errorcodes of all
earlier zones are discarded, not aggregated. -/
theorem schedule_last_code (p : Platform) (ov : Nat → Bool) (rt : Bool)
    (pre post : List (String × ZoneDur)) (e : String × ZoneDur)
    (d : Doc) (ec : Int) (s : St) (d' : Doc) (ec' : Int) (s' : St)
    (hkeys : ∀ x ∈ pre ++ e :: post, (d.zonemap.lookup x.1).isSome = true)
    (hstore : s.store = d)
    (hincl : inclZone d e = true)
    (hpost : ∀ x ∈ post, inclZone d x = false)
    (hok : schedLoop p ov rt (pre ++ e :: post) d ec s = Except.ok (d', ec', s')) :
    Except.ok ec' = (schedLoop p ov rt pre d ec s).map
      (fun t => (Irrigate p e.1 e.2.duration ov rt
        (writeJSON (setZoneActive t.1 e.1 true) t.2.2)).1) := by
  rw [schedLoop_append] at hok
  obtain ⟨d0, ec0, s0, hh1, hh2, hh3, hh4, hh5, hh6, hh7⟩ :=
    schedLoop_ok p ov rt pre d ec s
      (fun x hx => hkeys x (List.mem_append_left _ hx)) hstore
  rw [hh1] at hok ⊢
  simp only [Except.map]
  obtain ⟨ekey, ezd⟩ := e
  have hkk : (d0.zonemap.lookup ekey).isSome = true := by
    rw [hh4]
    exact hkeys (ekey, ezd) (List.mem_append_right _ (by simp))
  obtain ⟨zi0, hzi0⟩ : ∃ zi, d0.zonemap.lookup ekey = some zi := by
    cases h : d0.zonemap.lookup ekey with
    | none => rw [h] at hkk; simp at hkk
    | some zi => exact ⟨zi, rfl⟩
  have hcond : zi0.enabled = true ∧ ezd.duration ≠ 0 := by
    have h1 : zoneEnabled d0 ekey = zoneEnabled d ekey := hh3 ekey
    simp only [zoneEnabled, hzi0] at h1
    simp only [inclZone, zoneEnabled, Bool.and_eq_true, bne_iff_ne, ne_eq] at hincl
    exact ⟨by rw [h1]; exact hincl.1, by simpa using hincl.2⟩
  simp only [schedLoop, hzi0, if_pos hcond] at hok
  rw [Irrigate_eq] at hok
  simp only [writeJSON, readJSON] at hok
  set d1 : Doc := setZoneActive d0 ekey true with hd1
  set d3 : Doc := setZoneActive { d1 with controls := { active := d1.controls.active, manual_override := ov (ovStop ov s0.reads (ezd.duration * 60) + 1) } } ekey false with hd3
  set s3 : St := { store := d3, events := s0.events ++ [Event.writeEv d1] ++ irrEvents ekey ezd.duration rt ++ [Event.writeEv d3], reads := ovStop ov s0.reads (ezd.duration * 60) + 1 + 1 } with hs3
  have hz3 : ∀ k, zoneEnabled d3 k = zoneEnabled d0 k := by
    intro k
    rw [hd3, zoneEnabled_setZoneActive]
    show zoneEnabled (setZoneActive d0 ekey true) k = _
    exact zoneEnabled_setZoneActive d0 ekey true k
  have hi3 : ∀ k, (d3.zonemap.lookup k).isSome = (d0.zonemap.lookup k).isSome := by
    intro k
    rw [hd3, isSome_setZoneActive]
    show ((setZoneActive d0 ekey true).zonemap.lookup k).isSome = _
    exact isSome_setZoneActive d0 ekey true k
  obtain ⟨D2, EC2, S2, g1, g2, g3, g4, g5, g6, g7⟩ :=
    schedLoop_ok p ov rt post d3
      (if ov (ovStop ov s0.reads (ezd.duration * 60)) = true then 42
        else p.setrelay rt ekey + p.setrelay (!rt) ekey) s3
      (fun x hx => by
        rw [hi3 x.1, hh4 x.1]
        exact hkeys x (List.mem_append_right _ (List.mem_cons_of_mem _ hx))) rfl
  have hfilter : post.filter (inclZone d3) = [] := by
    rw [List.filter_eq_nil_iff]
    intro x hx
    rw [inclZone_congr (fun k => (hz3 k).trans (hh3 k)) x, hpost x hx]
    simp
  obtain ⟨hec2, _, _⟩ := g7 hfilter
  rw [g1] at hok
  have hinj : ec' = EC2 := by
    have := Except.ok.inj hok
    have h2 := congrArg (fun t => t.2.1) this
    simpa using h2.symm
  rw [hinj, hec2, Irrigate_eq]
  simp only [writeJSON]

theorem relayCalls_append (a b : List Event) :
    relayCalls (a ++ b) = relayCalls a ++ relayCalls b :=
  List.filterMap_append a b _

theorem relayCalls_writeLog (m : String) (s : St) :
    relayCalls (writeLog m s).events = relayCalls s.events := by
  simp [writeLog, relayCalls]

theorem relayCalls_writeJSON (d : Doc) (s : St) :
    relayCalls (writeJSON d s).events = relayCalls s.events := by
  simp [writeJSON, relayCalls]

/-- The sorted iteration order of a schedule's entries is ascending in
the zone identifier. -/
theorem sortByKey_pairwise (l : List (String × ZoneDur)) :
    (sortByKey l).Pairwise (fun a b => keyLe a b = true) := by
  apply List.sorted_mergeSort
  · intro a b c hab hbc
    simp only [keyLe, decide_eq_true_eq] at *
    exact le_trans hab hbc
  · intro a b
    simp only [keyLe, Bool.or_eq_true, decide_eq_true_eq]
    exact le_total a.1 b.1

/-- C8: a schedule run of an existing schedule activates exactly the
entries that are enabled in `zonemap` and have nonzero duration, as one
engage/disengage relay pair each, sequentially in ascending sorted
zone-identifier order; skipped entries produce no relay call, and if
every entry is skipped the errorcode is left untouched. -/
theorem schedule_zone_selection (p : Platform) (ov : Nat → Bool) (rt : Bool)
    (sel z : String) (dur : Nat) (reason : String) (d : Doc) (ec : Int) (s : St)
    (sch : Sched) (d' : Doc) (ec' : Int) (s' : St)
    (hsch : d.schedules.lookup sel = some sch)
    (hkeys : ∀ x ∈ sortByKey sch.zones, (d.zonemap.lookup x.1).isSome = true)
    (hok : execBranch p ov rt Branch.scheduleRun sel z dur reason d ec s =
      Except.ok (d', ec', s')) :
    relayCalls s'.events = relayCalls s.events ++
      ((sortByKey sch.zones).filter (inclZone d)).flatMap (fun x => [(rt, x.1), (!rt, x.1)]) ∧
    ((sortByKey sch.zones).filter (inclZone d)).Pairwise (fun a b => keyLe a b = true) ∧
    ((sortByKey sch.zones).filter (inclZone d) = [] → ec' = ec) := by
  simp only [execBranch] at hok
  rw [hsch] at hok
  simp only [] at hok
  obtain ⟨D2, EC2, S2, g1, g2, g3, g4, g5, g6, g7⟩ :=
    schedLoop_ok p ov rt (sortByKey sch.zones) (setSchedActive d sel true) ec
      (writeJSON (setSchedActive d sel true)
        (writeLog (sel ++ " found in JSON file. Running Now.")
          (writeLog ("Schedule Run Selected with Schedule: " ++ sel) s)))
      (fun x hx => hkeys x hx) rfl
  rw [g1] at hok
  simp only [] at hok
  have hik : inclZone (setSchedActive d sel true) = inclZone d := rfl
  rw [hik] at g6 g7
  have hinj := Except.ok.inj hok
  have hec : ec' = EC2 := by
    have := congrArg (fun t => t.2.1) hinj
    simpa using this.symm
  have hs : s' = writeJSON (setSchedActive D2 sel false) S2 := by
    have := congrArg (fun t => t.2.2) hinj
    simpa using this.symm
  refine ⟨?_, ?_, ?_⟩
  · rw [hs, relayCalls_writeJSON, g6, relayCalls_writeJSON,
      relayCalls_writeLog, relayCalls_writeLog]
  · exact List.Pairwise.sublist (List.filter_sublist _) (sortByKey_pairwise sch.zones)
  · intro hf
    rw [hec]
    exact (g7 hf).1

/-- A relay capability that always succeeds, for concrete witnesses. -/
def p0 : Platform := { setrelay := fun _ _ => 0 }

/-- The schedule stored under "morning" in `sampleDoc`. -/
def sampleSched : Sched := { zones := [("frontlawn", { duration := 5 })], active := false }

unseal List.merge List.mergeSort

/-- The concrete result of the sample schedule-branch execution. -/
def c8Res : Doc × Int × St :=
  (execBranch p0 (fun _ => false) false Branch.scheduleRun "morning" "null" 0 ""
    sampleDoc 0 sampleSt).toOption.getD (sampleDoc, 0, sampleSt)

theorem schedule_zone_selection_witness :
    sampleDoc.schedules.lookup "morning" = some sampleSched ∧
    (relayCalls c8Res.2.2.events = relayCalls sampleSt.events ++
      ((sortByKey sampleSched.zones).filter (inclZone sampleDoc)).flatMap
        (fun x => [(false, x.1), (!false, x.1)]) ∧
    ((sortByKey sampleSched.zones).filter (inclZone sampleDoc)).Pairwise
      (fun a b => keyLe a b = true) ∧
    ((sortByKey sampleSched.zones).filter (inclZone sampleDoc) = [] → c8Res.2.1 = 0)) :=
  ⟨rfl, schedule_zone_selection p0 (fun _ => false) false "morning" "null" 0 ""
    sampleDoc 0 sampleSt sampleSched c8Res.1 c8Res.2.1 c8Res.2.2 rfl (by decide) (by rfl)⟩

/-- The concrete result of the sample one-entry schedule loop. -/
def c9Res : Doc × Int × St :=
  (schedLoop p0 (fun _ => false) false [("frontlawn", { duration := 5 })]
    sampleDoc 0 sampleSt).toOption.getD (sampleDoc, 0, sampleSt)

theorem schedule_last_code_witness :
    Except.ok c9Res.2.1 =
      (schedLoop p0 (fun _ => false) false [] sampleDoc 0 sampleSt).map
        (fun t => (Irrigate p0 "frontlawn" ({ duration := 5 } : ZoneDur).duration
          (fun _ => false) false (writeJSON (setZoneActive t.1 "frontlawn" true) t.2.2)).1) :=
  schedule_last_code p0 (fun _ => false) false [] [] ("frontlawn", { duration := 5 })
    sampleDoc 0 sampleSt c9Res.1 c9Res.2.1 c9Res.2.2 (by decide) rfl (by decide)
    (by simp) rfl

theorem String.ne_of_headP (a b y : String) (c1 c2 : Char) (ha : a.data.head? = some c1)
    (hb : b.data.head? = some c2) (hc : c1 ≠ c2) : a ≠ b ++ y := by
  intro h
  have h2 := congrArg (fun s => s.data.head?) h
  simp only [String.data_append, List.head?_append, ha, hb, Option.or] at h2
  exact hc (Option.some.inj h2)

theorem String.ne_of_lastP (a b y : String) (c1 c2 : Char) (ha : a.data.getLast? = some c1)
    (hb : (b ++ y).data.getLast? = some c2) (hc : c1 ≠ c2) : a ≠ b ++ y := by
  intro h
  have h2 := congrArg (fun s => s.data.getLast?) h
  simp only [String.data_append, List.getLast?_append, Option.or] at h2 hb
  rw [ha] at h2
  exact hc (Option.some.inj (h2.trans hb))

theorem String.ne_of_notPre (a b y : String) (hp : ¬ (b.data <+: a.data)) : a ≠ b ++ y := by
  intro h
  apply hp
  rw [h, String.data_append]
  exact List.prefix_append b.data y.data

/-- The fixed prefix of the weather-cancellation log line
(`control.py` line 295). -/
def cancelHead : String := "Irrigation cancelled due to weather status exceeding limits. "

theorem cancelMsg_head (reason : String) :
    (cancelHead ++ reason).data.head? = some 'I' := by
  rw [String.data_append, List.head?_append]
  rfl

theorem cancelMsg_last (wd : WxData) (ws : WxStatus) :
    (cancelHead ++ String.join (wxCancelEval wd ws).2).data.getLast? = some ' ' := by
  simp only [wxCancelEval]
  split_ifs <;> decide

/-- The log lines a non-weather-cancelled branch of the if/else tree can
emit (`control.py` lines 244-291). -/
def branchLogForm (sel zone : String) (m : String) : Prop :=
  m = "Initialize Relays Selected." ∨
  m = "Schedule Run Selected with Schedule: " ++ sel ∨
  m = sel ++ " found in JSON file. Running Now." ∨
  m = sel ++ " not found in JSON file.  Exiting Now." ∨
  m = "Manual Run Selected." ∨
  m = zone ++ " not found in JSON file.  Exiting." ∨
  m = "No Action." ∨
  (∃ z n, m = irrOnMsg z n) ∨ (∃ z, m = irrOffMsg z)

theorem branchLogForm_ne_cancel (sel zone m : String) (wd : WxData) (ws : WxStatus)
    (h : branchLogForm sel zone m) :
    m ≠ cancelHead ++ String.join (wxCancelEval wd ws).2 := by
  have hlast := cancelMsg_last wd ws
  have hhead := cancelMsg_head (String.join (wxCancelEval wd ws).2)
  rcases h with h | h | h | h | h | h | h | ⟨z, n, h⟩ | ⟨z, h⟩
  · subst h
    exact String.ne_of_notPre _ _ _ (by decide)
  · subst h
    exact String.ne_of_headP _ _ _ 'S' 'I' rfl rfl (by decide)
  · subst h
    refine String.ne_of_lastP _ _ _ '.' ' ' ?_ hlast (by decide)
    simp [String.data_append]
  · subst h
    refine String.ne_of_lastP _ _ _ '.' ' ' ?_ hlast (by decide)
    simp [String.data_append]
  · subst h
    exact String.ne_of_headP _ _ _ 'M' 'I' rfl rfl (by decide)
  · subst h
    refine String.ne_of_lastP _ _ _ '.' ' ' ?_ hlast (by decide)
    simp [String.data_append]
  · subst h
    exact String.ne_of_headP _ _ _ 'N' 'I' rfl rfl (by decide)
  · subst h
    refine String.ne_of_headP _ _ _ 'T' 'I' ?_ rfl (by decide)
    simp [irrOnMsg, String.data_append]
  · subst h
    refine String.ne_of_headP _ _ _ 'T' 'I' ?_ rfl (by decide)
    simp [irrOffMsg, String.data_append]

theorem schedLoop_events_of_ok (p : Platform) (ov : Nat → Bool) (rt : Bool) :
    ∀ (entries : List (String × ZoneDur)) (d : Doc) (ec : Int) (s : St)
    (d' : Doc) (ec' : Int) (s' : St),
    schedLoop p ov rt entries d ec s = Except.ok (d', ec', s') →
    ∃ l, s'.events = s.events ++ l ∧ (∀ e ∈ l, schedEvOk e) := by
  intro entries
  induction entries with
  | nil =>
    intro d ec s d' ec' s' hok
    simp only [schedLoop] at hok
    have h3 := Except.ok.inj hok
    rw [Prod.mk.injEq, Prod.mk.injEq] at h3
    obtain ⟨-, -, hs⟩ := h3
    exact ⟨[], by rw [← hs]; simp, by simp⟩
  | cons a rest ih =>
    intro d ec s d' ec' s' hok
    obtain ⟨key, zd⟩ := a
    simp only [schedLoop] at hok
    cases hzi : d.zonemap.lookup key with
    | none => rw [hzi] at hok; simp at hok
    | some zi =>
      rw [hzi] at hok
      simp only [] at hok
      by_cases hcond : zi.enabled = true ∧ zd.duration ≠ 0
      · rw [if_pos hcond] at hok
        rw [Irrigate_eq] at hok
        obtain ⟨l, hl, hok2⟩ := ih _ _ _ _ _ _ hok
        refine ⟨Event.writeEv (setZoneActive d key true) ::
          Event.logEv (irrOnMsg key zd.duration) :: Event.relayEv rt key ::
          Event.logEv (irrOffMsg key) :: Event.relayEv (!rt) key ::
          Event.writeEv (setZoneActive (readJSON ov (Irrigate p key zd.duration ov rt
            (writeJSON (setZoneActive d key true) s)).2).1 key false) :: l, ?_, ?_⟩
        · rw [hl]
          rw [Irrigate_eq]
          simp [writeJSON, writeLog, readJSON, irrEvents]
        · intro e he
          simp only [List.mem_cons] at he
          rcases he with rfl | rfl | rfl | rfl | rfl | rfl | h
          · trivial
          · exact Or.inl ⟨key, zd.duration, rfl⟩
          · trivial
          · exact Or.inr ⟨key, rfl⟩
          · trivial
          · trivial
          · exact hok2 e h
      · rw [if_neg hcond] at hok
        exact ih _ _ _ _ _ _ hok

theorem execBranch_events (p : Platform) (ov : Nat → Bool) (rt : Bool) (b : Branch)
    (sel zone : String) (dur : Nat) (reason : String) (d : Doc) (ec : Int) (s : St)
    (d' : Doc) (ec' : Int) (s' : St)
    (hok : execBranch p ov rt b sel zone dur reason d ec s = Except.ok (d', ec', s')) :
    ∃ l, s'.events = s.events ++ l ∧
      (∀ e ∈ l, e ≠ Event.cleanupEv) ∧
      (b ≠ Branch.weatherCancelled → ∀ m, Event.logEv m ∈ l → branchLogForm sel zone m) := by
  cases b with
  | init =>
    simp only [execBranch] at hok
    have h3 := Except.ok.inj hok
    rw [Prod.mk.injEq, Prod.mk.injEq] at h3
    obtain ⟨-, -, hs⟩ := h3
    refine ⟨[Event.logEv "Initialize Relays Selected."], by rw [← hs]; rfl, ?_, ?_⟩
    · intro e he
      simp only [List.mem_singleton] at he
      subst he; simp
    · intro _ m hm
      simp only [List.mem_singleton, Event.logEv.injEq] at hm
      exact Or.inl hm
  | scheduleRun =>
    simp only [execBranch] at hok
    cases hsch : d.schedules.lookup sel with
    | none =>
      rw [hsch] at hok
      simp only [] at hok
      have h3 := Except.ok.inj hok
      rw [Prod.mk.injEq, Prod.mk.injEq] at h3
      obtain ⟨-, -, hs⟩ := h3
      refine ⟨[Event.logEv ("Schedule Run Selected with Schedule: " ++ sel),
        Event.logEv (sel ++ " not found in JSON file.  Exiting Now.")],
        by rw [← hs]; simp [writeLog], ?_, ?_⟩
      · intro e he
        simp only [List.mem_cons, List.not_mem_nil, or_false] at he
        rcases he with rfl | rfl <;> simp
      · intro _ m hm
        simp only [List.mem_cons, List.not_mem_nil, or_false, Event.logEv.injEq] at hm
        rcases hm with h | h
        · exact Or.inr (Or.inl h)
        · exact Or.inr (Or.inr (Or.inr (Or.inl h)))
    | some sch =>
      rw [hsch] at hok
      simp only [] at hok
      cases hloop : schedLoop p ov rt (sortByKey sch.zones) (setSchedActive d sel true) ec
          (writeJSON (setSchedActive d sel true)
            (writeLog (sel ++ " found in JSON file. Running Now.")
              (writeLog ("Schedule Run Selected with Schedule: " ++ sel) s))) with
      | error e => rw [hloop] at hok; simp at hok
      | ok t =>
        obtain ⟨D2, EC2, S2⟩ := t
        rw [hloop] at hok
        simp only [] at hok
        have h3 := Except.ok.inj hok
        rw [Prod.mk.injEq, Prod.mk.injEq] at h3
        obtain ⟨-, -, hs⟩ := h3
        obtain ⟨lsch, hl, hlok⟩ := schedLoop_events_of_ok p ov rt _ _ _ _ _ _ _ hloop
        refine ⟨[Event.logEv ("Schedule Run Selected with Schedule: " ++ sel),
          Event.logEv (sel ++ " found in JSON file. Running Now."),
          Event.writeEv (setSchedActive d sel true)] ++ lsch ++
          [Event.writeEv (setSchedActive D2 sel false)], ?_, ?_, ?_⟩
        · rw [← hs]
          show S2.events ++ [Event.writeEv (setSchedActive D2 sel false)] = _
          rw [hl]
          simp [writeJSON, writeLog]
        · intro e he
          simp only [List.mem_append, List.mem_cons, List.not_mem_nil, or_false] at he
          rcases he with ((rfl | rfl | rfl) | he) | rfl
          · simp
          · simp
          · simp
          · have := hlok e he
            intro hc
            rw [hc] at this
            exact this
          · simp
        · intro _ m hm
          simp only [List.mem_append, List.mem_cons, List.not_mem_nil, or_false,
            Event.logEv.injEq] at hm
          rcases hm with ((h | h | h) | hm) | h
          · exact Or.inr (Or.inl h)
          · exact Or.inr (Or.inr (Or.inl h))
          · exact absurd h (by simp)
          · have := hlok _ hm
            simp only [schedEvOk] at this
            rcases this with ⟨z, n, hz⟩ | ⟨z, hz⟩
            · exact Or.inr (Or.inr (Or.inr (Or.inr (Or.inr (Or.inr (Or.inr
                (Or.inl ⟨z, n, hz⟩)))))))
            · exact Or.inr (Or.inr (Or.inr (Or.inr (Or.inr (Or.inr (Or.inr
                (Or.inr ⟨z, hz⟩)))))))
          · exact absurd h (by simp)
  | manualRun =>
    simp only [execBranch] at hok
    cases hz : d.zonemap.lookup zone with
    | none =>
      rw [hz] at hok
      simp only [] at hok
      have h3 := Except.ok.inj hok
      rw [Prod.mk.injEq, Prod.mk.injEq] at h3
      obtain ⟨-, -, hs⟩ := h3
      refine ⟨[Event.logEv "Manual Run Selected.",
        Event.logEv (zone ++ " not found in JSON file.  Exiting.")],
        by rw [← hs]; simp [writeLog], ?_, ?_⟩
      · intro e he
        simp only [List.mem_cons, List.not_mem_nil, or_false] at he
        rcases he with rfl | rfl <;> simp
      · intro _ m hm
        simp only [List.mem_cons, List.not_mem_nil, or_false, Event.logEv.injEq] at hm
        rcases hm with h | h
        · exact Or.inr (Or.inr (Or.inr (Or.inr (Or.inl h))))
        · exact Or.inr (Or.inr (Or.inr (Or.inr (Or.inr (Or.inl h)))))
    | some zi =>
      rw [hz] at hok
      simp only [] at hok
      rw [Irrigate_eq] at hok
      have h3 := Except.ok.inj hok
      rw [Prod.mk.injEq, Prod.mk.injEq] at h3
      obtain ⟨-, -, hs⟩ := h3
      refine ⟨[Event.logEv "Manual Run Selected.",
        Event.writeEv (setZoneActive d zone true)] ++ irrEvents zone dur rt ++
        [Event.writeEv (setZoneActive (setZoneActive d zone true) zone false)], ?_, ?_, ?_⟩
      · rw [← hs]
        show (writeJSON _ _).events = _
        simp [writeJSON, writeLog, irrEvents]
      · intro e he
        simp only [irrEvents, List.mem_append, List.mem_cons, List.not_mem_nil,
          or_false] at he
        rcases he with ((rfl | rfl) | (rfl | rfl | rfl | rfl)) | rfl <;> simp
      · intro _ m hm
        simp only [irrEvents, List.mem_append, List.mem_cons, List.not_mem_nil, or_false,
          Event.logEv.injEq] at hm
        rcases hm with ((h | h) | (h | h | h | h)) | h
        · exact Or.inr (Or.inr (Or.inr (Or.inr (Or.inl h))))
        · exact absurd h (by simp)
        · exact Or.inr (Or.inr (Or.inr (Or.inr (Or.inr (Or.inr (Or.inr
            (Or.inl ⟨zone, dur, h⟩)))))))
        · exact absurd h (by simp)
        · exact Or.inr (Or.inr (Or.inr (Or.inr (Or.inr (Or.inr (Or.inr
            (Or.inr ⟨zone, h⟩)))))))
        · exact absurd h (by simp)
        · exact absurd h (by simp)
  | weatherCancelled =>
    simp only [execBranch] at hok
    have h3 := Except.ok.inj hok
    rw [Prod.mk.injEq, Prod.mk.injEq] at h3
    obtain ⟨-, -, hs⟩ := h3
    refine ⟨[Event.logEv
      ("Irrigation cancelled due to weather status exceeding limits. " ++ reason)],
      by rw [← hs]; rfl, ?_, ?_⟩
    · intro e he
      simp only [List.mem_singleton] at he
      subst he; simp
    · intro habs
      exact absurd rfl habs
  | noAction =>
    simp only [execBranch] at hok
    have h3 := Except.ok.inj hok
    rw [Prod.mk.injEq, Prod.mk.injEq] at h3
    obtain ⟨-, -, hs⟩ := h3
    refine ⟨[Event.logEv "No Action."], by rw [← hs]; rfl, ?_, ?_⟩
    · intro e he
      simp only [List.mem_singleton] at he
      subst he; simp
    · intro _ m hm
      simp only [List.mem_singleton, Event.logEv.injEq] at hm
      exact Or.inr (Or.inr (Or.inr (Or.inr (Or.inr (Or.inr (Or.inl hm))))))

theorem wxInfoMsg_ne_cancel (d : Doc) (ws : WxStatus) (wd : WxData) (ws2 : WxStatus) :
    wxInfoMsg d ws ≠ cancelHead ++ String.join (wxCancelEval wd ws2).2 := by
  unfold wxInfoMsg
  by_cases ht : d.wx.temp_enable = true
  · simp only [ht, if_true]
    refine String.ne_of_headP _ _ _ 'C' 'I' ?_ rfl (by decide)
    simp [String.data_append]
  · simp only [ht, if_false]
    by_cases hh : d.wx.history_enable = true
    · simp only [hh, if_true]
      refine String.ne_of_headP _ _ _ 'P' 'I' ?_ rfl (by decide)
      simp [String.data_append]
    · simp only [hh, if_false]
      by_cases hfc : d.wx.forecast_enable = true
      · simp only [hfc, if_true]
        refine String.ne_of_headP _ _ _ 'P' 'I' ?_ rfl (by decide)
        simp [String.data_append]
      · simp only [hfc, if_false]
        intro h
        have hh2 := cancelMsg_head (String.join (wxCancelEval wd ws2).2)
        rw [← h] at hh2
        simp at hh2

/-- The log lines the prelude can emit (`control.py` lines 101-209). -/
def preLogForm (d0 : Doc) (ws : WxStatus) (m : String) : Prop :=
  m = "***** Control Script Starting *****" ∨
  m = platformInitMsg d0.settings.target_sys ∨
  m = "Force run selected. Ignoring weather." ∨
  m = wxInfoMsg d0 ws

theorem mainPrelude_events (args : Args) (doc0 : Doc) (ov : Nat → Bool)
    (wx : Option WxStatus) :
    ∀ e ∈ (mainPrelude args doc0 ov wx).2.2.events,
      e ≠ Event.cleanupEv ∧
      ∀ m, e = Event.logEv m → preLogForm doc0 (checkweather wx).1 m := by
  intro e he
  simp only [mainPrelude, writeLog, writeJSON, readJSON, wxInfoLog] at he
  have hwi : wxInfoMsg { doc0 with controls := { active := true, manual_override := ov 0 } }
      (checkweather wx).1 = wxInfoMsg doc0 (checkweather wx).1 := rfl
  split_ifs at he <;>
    simp only [List.append_assoc, List.singleton_append, List.cons_append,
      List.nil_append] at he <;>
    fin_cases he <;>
    refine ⟨by simp, ?_⟩ <;>
    intro m hm <;>
    first
    | (simp only [Event.logEv.injEq] at hm
       subst hm
       first
       | exact Or.inl rfl
       | exact Or.inr (Or.inl rfl)
       | exact Or.inr (Or.inr (Or.inl rfl))
       | exact Or.inr (Or.inr (Or.inr hwi)))
    | exact Event.noConfusion hm

theorem count_cleanup_zero_of (l : List Event) (h : ∀ e ∈ l, e ≠ Event.cleanupEv) :
    l.count Event.cleanupEv = 0 :=
  List.count_eq_zero.mpr (fun hmem => h _ hmem rfl)

/-- C1: on every completed invocation of the control script, the relay
capability's cleanup operation is invoked exactly once, and the final
persisted configuration document — the last write of the run — has
`controls.active = false` and `controls.manual_override = false`. -/
theorem cleanup_and_final_flags (args : Args) (doc0 : Doc) (p : Platform)
    (ov : Nat → Bool) (wx : Option WxStatus) (r : MainResult)
    (hok : mainRun args doc0 p ov wx = Except.ok r) :
    r.events.count Event.cleanupEv = 1 ∧
    r.finalDoc.controls.active = false ∧
    r.finalDoc.controls.manual_override = false ∧
    r.events.getLast? = some (Event.writeEv r.finalDoc) := by
  simp only [mainRun] at hok
  cases hexec : execBranch p ov (mainPrelude args doc0 ov wx).1.settings.relay_trigger
      (decideBranch args.ini args.schedule.isSome
        (wxCancelEval (mainPrelude args doc0 ov wx).1.wx (checkweather wx).1).1 args.force)
      (args.schedule.getD "null") (args.zone.getD "null") (args.duration.getD 0)
      (String.join (wxCancelEval (mainPrelude args doc0 ov wx).1.wx (checkweather wx).1).2)
      (mainPrelude args doc0 ov wx).1 (mainPrelude args doc0 ov wx).2.1
      (mainPrelude args doc0 ov wx).2.2 with
  | error e => rw [hexec] at hok; simp at hok
  | ok t =>
    obtain ⟨d2, ec2, s2⟩ := t
    rw [hexec] at hok
    simp only [] at hok
    have hr := (Except.ok.inj hok).symm
    subst hr
    obtain ⟨l, hl, hlc, -⟩ := execBranch_events _ _ _ _ _ _ _ _ _ _ _ _ _ _ hexec
    refine ⟨?_, rfl, rfl, ?_⟩
    · show (List.count Event.cleanupEv ((cleanupOp s2).events ++ [Event.logEv _] ++
        [Event.logEv _] ++ [Event.writeEv _])) = 1
      simp only [cleanupOp, List.count_append, List.append_assoc]
      rw [hl]
      rw [List.count_append]
      rw [count_cleanup_zero_of _ (fun e he => (mainPrelude_events args doc0 ov wx e he).1)]
      rw [count_cleanup_zero_of _ hlc]
      simp [List.count_cons]
    · simp [writeJSON, writeLog, cleanupOp, List.getLast?_append]

theorem decideBranch_force :
    ∀ i sr wc : Bool, decideBranch i sr wc true ≠ Branch.weatherCancelled := by
  decide

/-- C6: when the weather gate trips but the force flag is set (and init is
not requested), the top-level tree dispatches to the schedule-run or
manual-run branch — not the weather-cancelled exit with errorcode 1 — and
the process errorcode is exactly the errorcode produced by that branch's
execution. -/
theorem force_bypasses_gate (args : Args) (doc0 : Doc) (p : Platform)
    (ov : Nat → Bool) (wx : Option WxStatus) (r : MainResult)
    (hini : args.ini = false) (hf : args.force = true)
    (hwx : (wxCancelEval doc0.wx (checkweather wx).1).1 = true)
    (hok : mainRun args doc0 p ov wx = Except.ok r) :
    r.branch = (if args.schedule.isSome = true then Branch.scheduleRun
      else Branch.manualRun) ∧
    r.branch ≠ Branch.weatherCancelled ∧
    (execBranch p ov (mainPrelude args doc0 ov wx).1.settings.relay_trigger r.branch
      (args.schedule.getD "null") (args.zone.getD "null") (args.duration.getD 0)
      (String.join (wxCancelEval (mainPrelude args doc0 ov wx).1.wx (checkweather wx).1).2)
      (mainPrelude args doc0 ov wx).1 (mainPrelude args doc0 ov wx).2.1
      (mainPrelude args doc0 ov wx).2.2).map (fun t => t.2.1) = Except.ok r.errorcode := by
  have hb : decideBranch args.ini args.schedule.isSome
      (wxCancelEval (mainPrelude args doc0 ov wx).1.wx (checkweather wx).1).1 args.force =
      (if args.schedule.isSome = true then Branch.scheduleRun else Branch.manualRun) := by
    rw [hini, hf, show (mainPrelude args doc0 ov wx).1.wx = doc0.wx from rfl, hwx]
    cases args.schedule.isSome <;> rfl
  simp only [mainRun] at hok
  rw [hb] at hok
  cases hexec : execBranch p ov (mainPrelude args doc0 ov wx).1.settings.relay_trigger
      (if args.schedule.isSome = true then Branch.scheduleRun else Branch.manualRun)
      (args.schedule.getD "null") (args.zone.getD "null") (args.duration.getD 0)
      (String.join (wxCancelEval (mainPrelude args doc0 ov wx).1.wx (checkweather wx).1).2)
      (mainPrelude args doc0 ov wx).1 (mainPrelude args doc0 ov wx).2.1
      (mainPrelude args doc0 ov wx).2.2 with
  | error e => rw [hexec] at hok; simp at hok
  | ok t =>
    obtain ⟨d2, ec2, s2⟩ := t
    rw [hexec] at hok
    simp only [] at hok
    have hr := (Except.ok.inj hok).symm
    subst hr
    refine ⟨rfl, ?_, ?_⟩
    · show (if args.schedule.isSome = true then Branch.scheduleRun else Branch.manualRun) ≠
        Branch.weatherCancelled
      cases args.schedule.isSome <;> simp
    · show (execBranch p ov _ (if args.schedule.isSome = true then Branch.scheduleRun
        else Branch.manualRun) _ _ _ _ _ _ _).map (fun t => t.2.1) = _
      rw [hexec]
      rfl

theorem platformInitMsg_ne_cancel (t : String) (wd : WxData) (ws : WxStatus) :
    platformInitMsg t ≠ cancelHead ++ String.join (wxCancelEval wd ws).2 := by
  unfold platformInitMsg
  split_ifs <;> exact String.ne_of_notPre _ _ _ (by decide)

/-- C7 amended: when the force flag is set, the weather-cancelled branch
is never taken and its log line — the only statement in the script that
emits the accumulated `wx_cancel_reason` — is never written to the log
sink: the tripped reasons are computed but dropped, and only the force
message is logged. -/
theorem force_reasons_not_logged (args : Args) (doc0 : Doc) (p : Platform)
    (ov : Nat → Bool) (wx : Option WxStatus) (r : MainResult)
    (hf : args.force = true)
    (hok : mainRun args doc0 p ov wx = Except.ok r) :
    r.branch ≠ Branch.weatherCancelled ∧
    Event.logEv (cancelHead ++
      String.join (wxCancelEval doc0.wx (checkweather wx).1).2) ∉ r.events := by
  simp only [mainRun] at hok
  cases hexec : execBranch p ov (mainPrelude args doc0 ov wx).1.settings.relay_trigger
      (decideBranch args.ini args.schedule.isSome
        (wxCancelEval (mainPrelude args doc0 ov wx).1.wx (checkweather wx).1).1 args.force)
      (args.schedule.getD "null") (args.zone.getD "null") (args.duration.getD 0)
      (String.join (wxCancelEval (mainPrelude args doc0 ov wx).1.wx (checkweather wx).1).2)
      (mainPrelude args doc0 ov wx).1 (mainPrelude args doc0 ov wx).2.1
      (mainPrelude args doc0 ov wx).2.2 with
  | error e => rw [hexec] at hok; simp at hok
  | ok t =>
    obtain ⟨d2, ec2, s2⟩ := t
    rw [hexec] at hok
    simp only [] at hok
    have hr := (Except.ok.inj hok).symm
    subst hr
    have hbr : decideBranch args.ini args.schedule.isSome
        (wxCancelEval (mainPrelude args doc0 ov wx).1.wx (checkweather wx).1).1 args.force ≠
        Branch.weatherCancelled := by
      rw [hf]
      exact decideBranch_force _ _ _
    obtain ⟨l, hl, -, hlog⟩ := execBranch_events _ _ _ _ _ _ _ _ _ _ _ _ _ _ hexec
    refine ⟨hbr, ?_⟩
    intro hmem
    simp only [writeJSON, writeLog, cleanupOp, List.append_assoc, List.mem_append,
      List.mem_cons, List.not_mem_nil, or_false] at hmem
    rcases hmem with hmem | hmem
    · rw [hl] at hmem
      rcases List.mem_append.mp hmem with hmem | hmem
      · have hpre := (mainPrelude_events args doc0 ov wx _ hmem).2 _ rfl
        rcases hpre with h | h | h | h
        · exact String.ne_of_headP "***** Control Script Starting *****" cancelHead _
            '*' 'I' rfl rfl (by decide) h.symm
        · exact platformInitMsg_ne_cancel doc0.settings.target_sys doc0.wx
            (checkweather wx).1 h.symm
        · exact String.ne_of_headP "Force run selected. Ignoring weather." cancelHead _
            'F' 'I' rfl rfl (by decide) h.symm
        · exact wxInfoMsg_ne_cancel doc0 (checkweather wx).1 doc0.wx
            (checkweather wx).1 h.symm
      · have hbl := hlog hbr _ hmem
        exact branchLogForm_ne_cancel _ _ _ doc0.wx (checkweather wx).1 hbl rfl
    · rcases hmem with hmem | hmem | hmem
      · exact Event.noConfusion hmem
      · refine String.ne_of_headP ("Exiting with errorcode = " ++ toString ec2) cancelHead _
          'E' 'I' ?_ rfl (by decide) (Event.logEv.inj hmem).symm
        simp [String.data_append]
      · rcases hmem with hmem | hmem
        · exact String.ne_of_headP "***** Control Script Ended *****" cancelHead _
            '*' 'I' rfl rfl (by decide) (Event.logEv.inj hmem).symm
        · exact Event.noConfusion hmem

/-- Contiguous-substring test on character lists. -/
def hasSub (tag : List Char) : List Char → Bool
  | [] => tag.isEmpty
  | c :: t => tag.isPrefixOf (c :: t) || hasSub tag t

/-- Whether any log line in the trace contains the given tag. -/
def logsWithTag (tag : List Char) (es : List Event) : Bool :=
  es.any (fun e => match e with
    | Event.logEv m => hasSub tag m.data
    | _ => false)

/-- A benign snapshot: gate does not trip over `sampleDoc`. -/
def sampleWx : WxStatus :=
  { temp_current := 50, rain_current := 0, rain_history_total := 0, rain_forecast := 0 }

/-- A snapshot whose history total exceeds `sampleDoc`'s `precip` limit. -/
def c7Ws : WxStatus :=
  { temp_current := 50, rain_current := 0, rain_history_total := 2, rain_forecast := 0 }

/-- A forced manual invocation (no schedule, no zone). -/
def c7Args : Args :=
  { zone := none, duration := none, schedule := none, force := true, ini := false }

/-- The concrete result of the forced invocation under the tripped gate. -/
def c7Res : MainResult :=
  (mainRun c7Args sampleDoc p0 (fun _ => false) (some c7Ws)).toOption.getD
    { errorcode := 0, branch := Branch.init, events := [], finalDoc := sampleDoc }

/-- C7 counterexample: a forced invocation in which the history check
would have fired, yet no log line of the whole run contains the history
reason tag — the tripped reasons are not emitted to the log sink. -/
theorem force_reasons_counterexample :
    c7Args.force = true ∧
    (wxCancelEval sampleDoc.wx (checkweather (some c7Ws)).1).1 = true ∧
    (wxCancelEval sampleDoc.wx (checkweather (some c7Ws)).1).2 =
      ["(Precipitation History) "] ∧
    mainRun c7Args sampleDoc p0 (fun _ => false) (some c7Ws) = Except.ok c7Res ∧
    logsWithTag "(Precipitation History)".data c7Res.events = false := by
  refine ⟨rfl, by decide, by decide, by rfl, by decide⟩

theorem force_reasons_not_logged_witness :
    c7Res.branch ≠ Branch.weatherCancelled ∧
    Event.logEv (cancelHead ++
      String.join (wxCancelEval sampleDoc.wx (checkweather (some c7Ws)).1).2) ∉
      c7Res.events :=
  force_reasons_not_logged c7Args sampleDoc p0 (fun _ => false) (some c7Ws) c7Res
    rfl (by rfl)

/-- A plain manual run of the sample zone. -/
def c1Args : Args :=
  { zone := some "frontlawn", duration := some 1, schedule := none,
    force := false, ini := false }

/-- The concrete result of the sample manual run. -/
def c1Res : MainResult :=
  (mainRun c1Args sampleDoc p0 (fun _ => false) (some sampleWx)).toOption.getD
    { errorcode := 0, branch := Branch.init, events := [], finalDoc := sampleDoc }

theorem cleanup_and_final_flags_witness :
    mainRun c1Args sampleDoc p0 (fun _ => false) (some sampleWx) = Except.ok c1Res ∧
    (c1Res.events.count Event.cleanupEv = 1 ∧
     c1Res.finalDoc.controls.active = false ∧
     c1Res.finalDoc.controls.manual_override = false ∧
     c1Res.events.getLast? = some (Event.writeEv c1Res.finalDoc)) :=
  ⟨rfl, cleanup_and_final_flags c1Args sampleDoc p0 (fun _ => false) (some sampleWx)
    c1Res rfl⟩

/-- A forced schedule run under the tripped gate. -/
def c6Args : Args :=
  { zone := none, duration := none, schedule := some "morning",
    force := true, ini := false }

/-- The concrete result of the forced schedule run. -/
def c6Res : MainResult :=
  (mainRun c6Args sampleDoc p0 (fun _ => false) (some c7Ws)).toOption.getD
    { errorcode := 0, branch := Branch.init, events := [], finalDoc := sampleDoc }

theorem force_bypasses_gate_witness :
    c6Res.branch = (if c6Args.schedule.isSome = true then Branch.scheduleRun
      else Branch.manualRun) ∧
    c6Res.branch ≠ Branch.weatherCancelled ∧
    (execBranch p0 (fun _ => false)
      (mainPrelude c6Args sampleDoc (fun _ => false) (some c7Ws)).1.settings.relay_trigger
      c6Res.branch (c6Args.schedule.getD "null") (c6Args.zone.getD "null")
      (c6Args.duration.getD 0)
      (String.join (wxCancelEval
        (mainPrelude c6Args sampleDoc (fun _ => false) (some c7Ws)).1.wx
        (checkweather (some c7Ws)).1).2)
      (mainPrelude c6Args sampleDoc (fun _ => false) (some c7Ws)).1
      (mainPrelude c6Args sampleDoc (fun _ => false) (some c7Ws)).2.1
      (mainPrelude c6Args sampleDoc (fun _ => false) (some c7Ws)).2.2).map
      (fun t => t.2.1) = Except.ok c6Res.errorcode :=
  force_bypasses_gate c6Args sampleDoc p0 (fun _ => false) (some c7Ws) c6Res
    rfl rfl (by decide) (by rfl)
